import Mathlib

/-!
Verification of the SoulSync socket server (room/presence state machine and
event-routing logic).  The repository ships several iterations of the same
server; we embed the variants the claims refer to:

- the first variant of server.js (connection management with activeRooms,
  userRooms, the unified emitToRoom helper and the /emit endpoint), here in
  namespace Basic;
- the second, enhanced variant of server.js (callStates tracker, an
  emitToRoom that drops events with no resolvable room, and a /emit endpoint
  that always broadcasts), here in namespace Enhanced;
- the register handler and disconnect cleanup of the oldest variant
  (userSockets as a Map from userId to a single socketId), in namespace
  Part000;
- the message:update handler of the early chat variant, in namespace
  Part001.

Socket identifiers and user identifiers are numbers in the client protocol,
so they are modelled as Nat; JavaScript truthiness of a possibly-missing
number field is modelled on Option Nat (missing or 0 is falsy), and of a
possibly-missing string field on Option String (missing or empty is falsy).
Room membership maps are association lists whose value lists carry no
duplicates by construction, mirroring the insertion-ordered JS Set.
-/

/-- First-match lookup in an association list, mirroring JS object property
and Map access. -/
def lookupM [DecidableEq κ] (k : κ) : List (κ × α) → Option α
  | [] => none
  | (k', v) :: rest => if k' = k then some v else lookupM k rest

/-- Set a key to a value, replacing the existing binding or appending a new
one, as JS property assignment and Map.set do. -/
def mapSet [DecidableEq κ] (k : κ) (v : α) : List (κ × α) → List (κ × α)
  | [] => [(k, v)]
  | (k', v') :: rest =>
    if k' = k then (k, v) :: rest else (k', v') :: mapSet k v rest

/-- Update the value at a key in place when present, as JS in-place mutation
of an existing object property does; absent keys are untouched. -/
def mapModify [DecidableEq κ] (k : κ) (f : α → α) : List (κ × α) → List (κ × α)
  | [] => []
  | (k', v) :: rest =>
    if k' = k then (k', f v) :: rest else (k', v) :: mapModify k f rest

/-- Remove a binding, as the JS delete operator and Map.delete do. -/
def mapDelete [DecidableEq κ] (k : κ) : List (κ × α) → List (κ × α)
  | [] => []
  | (k', v) :: rest =>
    if k' = k then mapDelete k rest else (k', v) :: mapDelete k rest

/-- Add a socket to the set stored under a key, creating the entry when
absent; an already-present socket is left alone (JS Set.add), a new one is
appended (insertion order). -/
def addTo [DecidableEq κ] (k : κ) (s : Nat) : List (κ × List Nat) → List (κ × List Nat)
  | [] => [(k, [s])]
  | (k', ms) :: rest =>
    if k' = k then (k', if s ∈ ms then ms else ms ++ [s]) :: rest
    else (k', ms) :: addTo k s rest

/-- The member sockets stored under a key (empty when the key is absent). -/
def membersOf [DecidableEq κ] (k : κ) (l : List (κ × List Nat)) : List Nat :=
  (lookupM k l).getD []

/-- Canonical room key: every variant computes the room id of a pair of
participant ids with the same conditional template concatenation. -/
def roomKey (a b : Nat) : String :=
  if a < b then toString a ++ "-" ++ toString b
  else toString b ++ "-" ++ toString a

/-- Routing decision of an emit: a Socket.IO room, or a global broadcast to
every connected client. -/
inductive Target where
  | room (roomId : String)
  | broadcast
deriving DecidableEq

/-- One outbound dispatch decision: where the event goes and its name. -/
structure Emission where
  target : Target
  event : String
deriving DecidableEq

/-- The dynamic JS event payload, restricted to the fields the routing code
reads.  A missing field is none; JS treats 0 and the empty string as falsy. -/
structure Payload where
  sender_id : Option Nat := none
  caller_id : Option Nat := none
  receiver_id : Option Nat := none
  receiverId : Option Nat := none
  updated_by : Option Nat := none
  other_user_id : Option Nat := none
  conversationKey : Option String := none
  id : Option String := none
  call_id : Option String := none
deriving DecidableEq

/-- Recipients of io.to(roomId).emit: all sockets in the adapter room. -/
def ioTo (roomId : String) (adapter : List (String × List Nat)) : List Nat :=
  membersOf roomId adapter

/-- Recipients of socket.to(roomId).emit: all sockets in the adapter room
except the emitting socket itself. -/
def socketTo (s : Nat) (roomId : String) (adapter : List (String × List Nat)) :
    List Nat :=
  (membersOf roomId adapter).filter (fun x => x != s)

namespace Basic

/-- Sender resolution of the first server.js variant:
data?.sender_id ?? data?.caller_id (nullish coalescing). -/
def resolveSid (d : Payload) : Option Nat :=
  d.sender_id <|> d.caller_id

/-- Receiver resolution: data?.receiver_id ?? data?.receiverId. -/
def resolveRid (d : Payload) : Option Nat :=
  d.receiver_id <|> d.receiverId

/-- Whether the payload resolves a room: both sides present and truthy,
mirroring the JS condition sid AND rid after the coalescing chains. -/
def resolvable (d : Payload) : Bool :=
  match resolveSid d, resolveRid d with
  | some a, some b => a != 0 && b != 0
  | _, _ => false

/-- The unified emitter of the first server.js variant: route to the
canonical room when sender and receiver resolve, else io.emit to everyone. -/
def emitToRoom (event : String) (d : Payload) : List Emission :=
  match resolveSid d, resolveRid d with
  | some a, some b =>
    if a ≠ 0 ∧ b ≠ 0 then [Emission.mk (Target.room (roomKey a b)) event]
    else [Emission.mk Target.broadcast event]
  | _, _ => [Emission.mk Target.broadcast event]

/-- The /emit endpoint of the first variant: 400 on a falsy event name,
otherwise the same room-or-broadcast routing as the unified emitter. -/
def emitBridge (event : Option String) (d : Payload) :
    Except String (List Emission) :=
  match event with
  | none => Except.error "Missing event field"
  | some e =>
    if e = "" then Except.error "Missing event field"
    else Except.ok (emitToRoom e d)

/-- Server-side shared state of the first variant: the Socket.IO adapter
rooms (which sockets actually receive room emits), the activeRooms map, each
socket.data.currentRoom, and the userRooms registry. -/
structure ServerState where
  adapter : List (String × List Nat)
  activeRooms : List (String × List Nat)
  currentRoom : List (Nat × String)
  userRooms : List (Nat × List Nat)
deriving DecidableEq

/-- The state at server start: every store empty. -/
def emptyState : ServerState := ServerState.mk [] [] [] []

/-- One event delivered to a concrete list of recipient sockets. -/
structure RoomEmission where
  event : String
  recipients : List Nat
deriving DecidableEq

/-- The joinRoom handler: guard falsy ids, compute the canonical room id,
socket.join, record currentRoom, add to activeRooms, notify the other
members with room:joined, and emit room:ready to the whole room whenever the
member count is at least 2. -/
def joinRoom (s : Nat) (senderId receiverId : Option Nat) (st : ServerState) :
    ServerState × List RoomEmission :=
  match senderId, receiverId with
  | some a, some b =>
    if a = 0 ∨ b = 0 then (st, [])
    else
      let roomId := roomKey a b
      let adapter' := addTo roomId s st.adapter
      let active' := addTo roomId s st.activeRooms
      let st' : ServerState :=
        { st with adapter := adapter', activeRooms := active',
                  currentRoom := mapSet s roomId st.currentRoom }
      let ready :=
        if 2 ≤ (membersOf roomId active').length then
          [RoomEmission.mk "room:ready" (ioTo roomId adapter')]
        else []
      (st', RoomEmission.mk "room:joined" (socketTo s roomId adapter') :: ready)
  | _, _ => (st, [])

/-- The joinUserRoom handler: guard a falsy userId, join the per-user
adapter room, and add the socket to the userRooms set for that user. -/
def joinUserRoom (s : Nat) (userId : Option Nat) (st : ServerState) :
    ServerState :=
  match userId with
  | none => st
  | some u =>
    if u = 0 then st
    else
      { st with adapter := addTo ("user-" ++ toString u) s st.adapter,
                userRooms := addTo u s st.userRooms }

/-- The disconnect handler: the adapter drops the socket from every room;
then the handler removes the socket from its currentRoom entry in
activeRooms, deleting the room when it became empty and otherwise emitting
room:left to the remaining members; finally every userRooms set drops the
socket and empty user entries are deleted. -/
def disconnect (s : Nat) (st : ServerState) : ServerState × List RoomEmission :=
  let adapter' := st.adapter.map (fun p => (p.1, p.2.erase s))
  let ur' := (st.userRooms.map (fun p => (p.1, p.2.erase s))).filter
    (fun p => !p.2.isEmpty)
  match lookupM s st.currentRoom with
  | none =>
    (ServerState.mk adapter' st.activeRooms (mapDelete s st.currentRoom) ur', [])
  | some r =>
    match lookupM r st.activeRooms with
    | none =>
      (ServerState.mk adapter' st.activeRooms (mapDelete s st.currentRoom) ur', [])
    | some ms =>
      let ms' := ms.erase s
      if ms' = [] then
        (ServerState.mk adapter' (mapDelete r st.activeRooms)
          (mapDelete s st.currentRoom) ur', [])
      else
        (ServerState.mk adapter' (mapSet r ms' st.activeRooms)
          (mapDelete s st.currentRoom) ur',
         [RoomEmission.mk "room:left" (socketTo s r adapter')])

/-- The webrtc:signal handler: guard a falsy roomId, then relay to the room
through socket.to, which excludes the emitting socket. -/
def webrtcSignal (s : Nat) (roomId : Option String)
    (adapter : List (String × List Nat)) : List Nat :=
  match roomId with
  | none => []
  | some r => if r = "" then [] else socketTo s r adapter

end Basic

/-- Replace the first underscore of a character list by a dash, as the JS
String.replace with a plain string pattern replaces only the first match. -/
def dashUnderscoreAux : List Char → List Char
  | [] => []
  | c :: rest => if c = '_' then '-' :: rest else c :: dashUnderscoreAux rest

/-- conversationKey.replace of the enhanced variant: first underscore only. -/
def dashFirstUnderscore (s : String) : String :=
  String.mk (dashUnderscoreAux s.data)

namespace Enhanced

/-- Sender resolution of the enhanced variant:
data?.sender_id ?? data?.caller_id ?? data?.updated_by. -/
def resolveSid (d : Payload) : Option Nat :=
  d.sender_id <|> d.caller_id <|> d.updated_by

/-- Receiver resolution of the enhanced variant:
data?.receiver_id ?? data?.receiverId ?? data?.other_user_id. -/
def resolveRid (d : Payload) : Option Nat :=
  d.receiver_id <|> d.receiverId <|> d.other_user_id

/-- Room resolution of the enhanced emitToRoom: a truthy conversationKey
(first underscore replaced by a dash) wins; otherwise the canonical key of
the resolved pair when both are truthy; otherwise no room. -/
def resolvesRoom (d : Payload) : Option String :=
  let fallback : Option String :=
    match resolveSid d, resolveRid d with
    | some a, some b => if a ≠ 0 ∧ b ≠ 0 then some (roomKey a b) else none
    | _, _ => none
  match d.conversationKey with
  | some k => if k = "" then fallback else some (dashFirstUnderscore k)
  | none => fallback

/-- The enhanced emitToRoom: emit to the resolved room, or log an EMIT
FAILED warning and return without emitting anything when no room resolves. -/
def emitToRoom (event : String) (d : Payload) : List Emission :=
  match resolvesRoom d with
  | none => []
  | some r => [Emission.mk (Target.room r) event]

/-- The enhanced /emit endpoint: 400 on a falsy event name, otherwise an
unconditional io.emit global broadcast of the event. -/
def emitBridge (event : Option String) (d : Payload) :
    Except String (List Emission) :=
  match event, d with
  | none, _ => Except.error "Missing event"
  | some e, _ =>
    if e = "" then Except.error "Missing event"
    else Except.ok [Emission.mk Target.broadcast e]

/-- A tracked call: the spread of the originating payload plus the status
string and the last-update time (modelled as a logical clock value). -/
structure CallRecord where
  data : Payload
  status : String
  updated_at : Nat
deriving DecidableEq

/-- The callStates map: call id to its tracked record. -/
abbrev CallStates := List (String × CallRecord)

/-- Call id resolution of the lifecycle handlers other than call:start:
data?.call_id ?? data?.id. -/
def resolveCallId (d : Payload) : Option String :=
  d.call_id <|> d.id

/-- True when the lifecycle guard passes: a truthy resolved call id that is
present in the callStates map. -/
def callTracked (d : Payload) (cs : CallStates) : Bool :=
  match resolveCallId d with
  | none => false
  | some c => c != "" && (lookupM c cs).isSome

/-- The enhanced call:start handler: return on a falsy data.id, otherwise
store the call as ringing with the current time and route call:ringing
through the enhanced emitToRoom.  The emitted record spreads the original
payload, so its routing fields are those of the inbound data. -/
def callStart (now : Nat) (d : Payload) (cs : CallStates) :
    CallStates × List Emission :=
  match d.id with
  | none => (cs, [])
  | some cid =>
    if cid = "" then (cs, [])
    else (mapSet cid (CallRecord.mk d "ringing" now) cs,
          emitToRoom "call:ringing" d)

/-- Common shape of the enhanced call:accept/reject/cancel/end handlers:
when the resolved call id is truthy and tracked, overwrite its status and
last-update time; in every case route the status event (the spread of the
inbound data, whose routing fields are unchanged) through emitToRoom. -/
def callUpdate (ev stat : String) (now : Nat) (d : Payload) (cs : CallStates) :
    CallStates × List Emission :=
  let cs' :=
    match resolveCallId d with
    | none => cs
    | some cid =>
      if cid = "" then cs
      else
        match lookupM cid cs with
        | none => cs
        | some _ =>
          mapModify cid (fun r => CallRecord.mk r.data stat now) cs
  (cs', emitToRoom ev d)

/-- The call:accept handler of the enhanced variant. -/
def callAccept (now : Nat) (d : Payload) (cs : CallStates) :
    CallStates × List Emission :=
  callUpdate "call:accepted" "accepted" now d cs

/-- The call:reject handler of the enhanced variant. -/
def callReject (now : Nat) (d : Payload) (cs : CallStates) :
    CallStates × List Emission :=
  callUpdate "call:rejected" "rejected" now d cs

/-- The call:cancel handler of the enhanced variant. -/
def callCancel (now : Nat) (d : Payload) (cs : CallStates) :
    CallStates × List Emission :=
  callUpdate "call:cancelled" "cancelled" now d cs

/-- The call:end handler of the enhanced variant. -/
def callEnd (now : Nat) (d : Payload) (cs : CallStates) :
    CallStates × List Emission :=
  callUpdate "call:ended" "ended" now d cs

end Enhanced

namespace Part000

/-- The register handler of the oldest variant: userSockets.set(userId,
socket.id) on a Map.  The key may be a missing field (the handler has no
guard) and the value is a single socket id, so a second registration of the
same user replaces the first. -/
def register (s : Nat) (userId : Option Nat) (m : List (Option Nat × Nat)) :
    List (Option Nat × Nat) :=
  mapSet userId s m

/-- The connections the Map-based registry records for a user: the single
stored socket id, when any. -/
def registeredConnections (u : Option Nat) (m : List (Option Nat × Nat)) :
    List Nat :=
  match lookupM u m with
  | none => []
  | some v => [v]

/-- The disconnect handler of the oldest variant: delete every Map entry
whose stored socket id is the disconnecting socket. -/
def disconnectCleanup (s : Nat) (m : List (Option Nat × Nat)) :
    List (Option Nat × Nat) :=
  m.filter (fun p => p.2 != s)

end Part000

namespace Part001

/-- The message:update handler of the early chat variant: the handling
socket s relays the edit to the canonical room through io.to, which targets
every adapter member of the room with no exclusion of the sender. -/
def messageUpdate (s : Nat) (sender_id receiver_id : Nat)
    (adapter : List (String × List Nat)) : List Nat :=
  ioTo (roomKey sender_id receiver_id) adapter

end Part001

/-- Looking up a key just set yields the value just stored. -/
theorem lookupM_mapSet_self [DecidableEq κ] (k : κ) (v : α) (l : List (κ × α)) :
    lookupM k (mapSet k v l) = some v := by
  induction l with
  | nil => simp [mapSet, lookupM]
  | cons hd tl ih =>
    obtain ⟨k', v'⟩ := hd
    by_cases h : k' = k
    · simp [mapSet, h, lookupM]
    · simp [mapSet, h, lookupM, ih]

/-- In-place modification is visible through lookup. -/
theorem lookupM_mapModify_self [DecidableEq κ] (k : κ) (f : α → α)
    (l : List (κ × α)) :
    lookupM k (mapModify k f l) = (lookupM k l).map f := by
  induction l with
  | nil => rfl
  | cons hd tl ih =>
    obtain ⟨k', v⟩ := hd
    by_cases h : k' = k
    · simp [mapModify, h, lookupM]
    · simp [mapModify, h, lookupM, ih]

/-- A deleted key is absent. -/
theorem lookupM_mapDelete_self [DecidableEq κ] (k : κ) (l : List (κ × α)) :
    lookupM k (mapDelete k l) = none := by
  induction l with
  | nil => rfl
  | cons hd tl ih =>
    obtain ⟨k', v⟩ := hd
    by_cases h : k' = k
    · simp [mapDelete, h, ih]
    · simp [mapDelete, h, lookupM, ih]

/-- Adding an already-present socket leaves the room map unchanged. -/
theorem addTo_of_mem [DecidableEq κ] (k : κ) (s : Nat)
    (l : List (κ × List Nat)) (h : s ∈ membersOf k l) : addTo k s l = l := by
  induction l with
  | nil => simp [membersOf, lookupM] at h
  | cons hd tl ih =>
    obtain ⟨k', ms⟩ := hd
    by_cases hk : k' = k
    · subst hk
      simp [membersOf, lookupM] at h
      simp [addTo, h]
    · simp [membersOf, lookupM, hk] at h
      simp [addTo, hk, ih h]

/-- The socket just added is a member of the addressed set. -/
theorem mem_addTo_self [DecidableEq κ] (k : κ) (s : Nat)
    (l : List (κ × List Nat)) : s ∈ membersOf k (addTo k s l) := by
  induction l with
  | nil => simp [addTo, membersOf, lookupM]
  | cons hd tl ih =>
    obtain ⟨k', ms⟩ := hd
    by_cases hk : k' = k
    · subst hk
      by_cases hm : s ∈ ms
      · simp [addTo, membersOf, lookupM, hm]
      · simp [addTo, membersOf, lookupM, hm]
    · simpa [addTo, hk, membersOf, lookupM] using ih

/-- addTo never removes a membership: any socket of any set survives. -/
theorem mem_membersOf_addTo [DecidableEq κ] (k k' : κ) (s c : Nat)
    (l : List (κ × List Nat)) (h : c ∈ membersOf k' l) :
    c ∈ membersOf k' (addTo k s l) := by
  induction l with
  | nil => simp [membersOf, lookupM] at h
  | cons hd tl ih =>
    obtain ⟨k0, ms⟩ := hd
    by_cases h0 : k0 = k
    · subst h0
      by_cases h1 : k0 = k'
      · subst h1
        simp [membersOf, lookupM] at h
        by_cases hm : s ∈ ms
        · simp [addTo, membersOf, lookupM, hm, h]
        · simp [addTo, membersOf, lookupM, hm]
          exact Or.inl h
      · simp [membersOf, lookupM, h1] at h
        simpa [addTo, membersOf, lookupM, h1] using h
    · by_cases h1 : k0 = k'
      · subst h1
        simp [membersOf, lookupM] at h
        simp [addTo, h0, membersOf, lookupM, h]
      · simp [membersOf, lookupM, h1] at h
        simpa [addTo, h0, membersOf, lookupM, h1] using ih h

/-- The userRooms cleanup loop of disconnect leaves the registry unchanged
when the socket is in no user set and no stored set is empty. -/
theorem unregister_noop (s : Nat) (l : List (Nat × List Nat))
    (h : ∀ p ∈ l, s ∉ p.2 ∧ p.2 ≠ []) :
    (l.map (fun p => (p.1, p.2.erase s))).filter (fun p => !p.2.isEmpty) = l := by
  induction l with
  | nil => rfl
  | cons hd tl ih =>
    obtain ⟨h1, h2⟩ := h hd (List.mem_cons_self hd tl)
    have hms : hd.2.erase s = hd.2 := List.erase_of_not_mem h1
    have hne : hd.2.isEmpty = false := by
      cases hl : hd.2 with
      | nil => exact absurd hl h2
      | cons a as => rfl
    simp only [List.map_cons, List.filter_cons, hms, hne]
    simp only [Bool.not_false, if_pos]
    rw [ih (fun p hp => h p (List.mem_cons_of_mem hd hp))]

/-- The first-variant emitter falls back to a global broadcast whenever the
payload does not resolve a room. -/
theorem basic_emitToRoom_broadcast (e : String) (d : Payload)
    (h : Basic.resolvable d = false) :
    Basic.emitToRoom e d = [Emission.mk Target.broadcast e] := by
  unfold Basic.emitToRoom
  unfold Basic.resolvable at h
  cases hs : Basic.resolveSid d with
  | none => simp [hs]
  | some a =>
    cases hr : Basic.resolveRid d with
    | none => simp [hs, hr]
    | some b =>
      rw [hs, hr] at h
      simp only [Bool.and_eq_false_iff, bne_eq_false_iff_eq] at h
      simp only [hs, hr]
      rw [if_neg]
      rintro ⟨ha, hb⟩
      rcases h with h | h
      · exact ha h
      · exact hb h

/-- The first-variant emitter routes to the canonical room when both sides
resolve to nonzero identifiers. -/
theorem basic_emitToRoom_room (e : String) (d : Payload) (a b : Nat)
    (hs : Basic.resolveSid d = some a) (hr : Basic.resolveRid d = some b)
    (ha : a ≠ 0) (hb : b ≠ 0) :
    Basic.emitToRoom e d = [Emission.mk (Target.room (roomKey a b)) e] := by
  unfold Basic.emitToRoom
  rw [hs, hr]
  simp [ha, hb]

/-- The enhanced room resolution yields the canonical pair key when there is
no conversationKey and both identifiers resolve nonzero. -/
theorem enhanced_resolvesRoom_pair (d : Payload) (a b : Nat)
    (hk : d.conversationKey = none)
    (hs : Enhanced.resolveSid d = some a) (hr : Enhanced.resolveRid d = some b)
    (ha : a ≠ 0) (hb : b ≠ 0) :
    Enhanced.resolvesRoom d = some (roomKey a b) := by
  unfold Enhanced.resolvesRoom
  rw [hk, hs, hr]
  simp [ha, hb]

/-- The enhanced emitter emits exactly one room dispatch when a room
resolves. -/
theorem enhanced_emitToRoom_room (e : String) (d : Payload) (r : String)
    (h : Enhanced.resolvesRoom d = some r) :
    Enhanced.emitToRoom e d = [Emission.mk (Target.room r) e] := by
  unfold Enhanced.emitToRoom
  rw [h]

/-- The enhanced emitter emits nothing when no room resolves. -/
theorem enhanced_emitToRoom_drop (e : String) (d : Payload)
    (h : Enhanced.resolvesRoom d = none) :
    Enhanced.emitToRoom e d = [] := by
  unfold Enhanced.emitToRoom
  rw [h]

/-- C2: the canonical room key is order-independent, and it equals the
concatenation of the smaller and the larger identifier joined by a dash. -/
theorem c2_roomKey_commutative (a b : Nat) :
    roomKey a b = roomKey b a ∧
    roomKey a b = toString (min a b) ++ "-" ++ toString (max a b) := by
  constructor
  · unfold roomKey
    rcases Nat.lt_trichotomy a b with h | h | h
    · rw [if_pos h, if_neg (Nat.lt_asymm h)]
    · subst h; rfl
    · rw [if_neg (Nat.lt_asymm h), if_pos h]
  · unfold roomKey
    rcases Nat.lt_trichotomy a b with h | h | h
    · rw [if_pos h, Nat.min_eq_left h.le, Nat.max_eq_right h.le]
    · subst h
      rw [if_neg (Nat.lt_irrefl a), Nat.min_self, Nat.max_self]
    · rw [if_neg (Nat.lt_asymm h), Nat.min_eq_right h.le, Nat.max_eq_left h.le]

/-- C1 counterexample: after two distinct sockets join the 5-9 room exactly
one room:ready fires, but a third socket joining the same room fires
room:ready again, contrary to the claim that a third join does not re-fire
it. -/
theorem c1_counterexample :
    ((Basic.joinRoom 1 (some 5) (some 9) Basic.emptyState).2.countP
      (fun e => e.event == "room:ready")) = 0 ∧
    ((Basic.joinRoom 2 (some 5) (some 9)
        (Basic.joinRoom 1 (some 5) (some 9) Basic.emptyState).1).2.countP
      (fun e => e.event == "room:ready")) = 1 ∧
    ((Basic.joinRoom 3 (some 5) (some 9)
        (Basic.joinRoom 2 (some 5) (some 9)
          (Basic.joinRoom 1 (some 5) (some 9) Basic.emptyState).1).1).2.countP
      (fun e => e.event == "room:ready")) = 1 := by
  decide

/-- C1 amended: a join with truthy identifiers fires room:ready exactly once
on that join whenever the resulting member count is at least 2 - so it fires
once when the second member arrives, but it also fires again on every later
join - and the firing goes to all adapter members of the room, the joiner
included. -/
theorem c1_room_ready_every_join_at_threshold (s a b : Nat)
    (st : Basic.ServerState) (ha : a ≠ 0) (hb : b ≠ 0) :
    ((Basic.joinRoom s (some a) (some b) st).2.countP
        (fun e => e.event == "room:ready") =
      if 2 ≤ (membersOf (roomKey a b)
          (Basic.joinRoom s (some a) (some b) st).1.activeRooms).length
      then 1 else 0) ∧
    (2 ≤ (membersOf (roomKey a b)
        (Basic.joinRoom s (some a) (some b) st).1.activeRooms).length →
      Basic.RoomEmission.mk "room:ready"
          (ioTo (roomKey a b) (Basic.joinRoom s (some a) (some b) st).1.adapter)
        ∈ (Basic.joinRoom s (some a) (some b) st).2) := by
  have hguard : ¬(a = 0 ∨ b = 0) := fun h => h.elim ha hb
  have pj : ∀ x : List Nat,
      ((Basic.RoomEmission.mk "room:joined" x).event == "room:ready") = false :=
    fun _ => rfl
  have pr : ∀ x : List Nat,
      ((Basic.RoomEmission.mk "room:ready" x).event == "room:ready") = true :=
    fun _ => rfl
  unfold Basic.joinRoom
  dsimp only
  rw [if_neg hguard]
  dsimp only
  by_cases hc : 2 ≤ (membersOf (roomKey a b)
      (addTo (roomKey a b) s st.activeRooms)).length
  · simp only [if_pos hc]
    constructor
    · simp [List.countP_cons, List.countP_nil, pj, pr]
    · intro _
      simp
  · simp only [if_neg hc]
    constructor
    · simp [List.countP_cons, List.countP_nil, pj]
    · intro h
      exact absurd h hc

/-- C1 witness: the amended statement evaluated at the second join of the
5-9 scenario. -/
theorem c1_room_ready_every_join_at_threshold_witness :
    (((Basic.joinRoom 2 (some 5) (some 9)
        (Basic.joinRoom 1 (some 5) (some 9) Basic.emptyState).1).2.countP
          (fun e => e.event == "room:ready") =
      if 2 ≤ (membersOf (roomKey 5 9)
          (Basic.joinRoom 2 (some 5) (some 9)
            (Basic.joinRoom 1 (some 5) (some 9) Basic.emptyState).1).1.activeRooms).length
      then 1 else 0) ∧
     (2 ≤ (membersOf (roomKey 5 9)
          (Basic.joinRoom 2 (some 5) (some 9)
            (Basic.joinRoom 1 (some 5) (some 9) Basic.emptyState).1).1.activeRooms).length →
       Basic.RoomEmission.mk "room:ready"
           (ioTo (roomKey 5 9)
             (Basic.joinRoom 2 (some 5) (some 9)
               (Basic.joinRoom 1 (some 5) (some 9) Basic.emptyState).1).1.adapter)
         ∈ (Basic.joinRoom 2 (some 5) (some 9)
             (Basic.joinRoom 1 (some 5) (some 9) Basic.emptyState).1).2)) :=
  c1_room_ready_every_join_at_threshold 2 5 9
    (Basic.joinRoom 1 (some 5) (some 9) Basic.emptyState).1
    (by decide) (by decide)

/-- C3 counterexample: the enhanced emitToRoom of server.js, given a payload
with no resolvable sender and receiver, emits nothing at all - the event is
dropped with a warning, not broadcast to every connected client. -/
theorem c3_counterexample :
    Enhanced.emitToRoom "system:alert" ({} : Payload) = [] ∧
    Emission.mk Target.broadcast "system:alert" ∉
      Enhanced.emitToRoom "system:alert" ({} : Payload) := by
  decide

/-- C3 amended: when sender or receiver cannot be resolved, the first
variant of server.js broadcasts both from its socket router and from its
/emit bridge, and the enhanced /emit bridge always broadcasts globally; but
the enhanced socket router drops such events without emitting. -/
theorem c3_unresolvable_routing (e : String) (d : Payload) (hne : e ≠ "")
    (hb : Basic.resolvable d = false) (he : Enhanced.resolvesRoom d = none) :
    Basic.emitToRoom e d = [Emission.mk Target.broadcast e] ∧
    Basic.emitBridge (some e) d = Except.ok [Emission.mk Target.broadcast e] ∧
    Enhanced.emitBridge (some e) d = Except.ok [Emission.mk Target.broadcast e] ∧
    Enhanced.emitToRoom e d = [] := by
  refine ⟨basic_emitToRoom_broadcast e d hb, ?_, ?_,
    enhanced_emitToRoom_drop e d he⟩
  · unfold Basic.emitBridge
    dsimp only
    rw [if_neg hne, basic_emitToRoom_broadcast e d hb]
  · unfold Enhanced.emitBridge
    dsimp only
    rw [if_neg hne]

/-- C3 witness: the amended routing statement at the system:alert payload
with no sender or receiver fields. -/
theorem c3_unresolvable_routing_witness :
    Basic.emitToRoom "system:alert" ({} : Payload) =
      [Emission.mk Target.broadcast "system:alert"] ∧
    Basic.emitBridge (some "system:alert") ({} : Payload) =
      Except.ok [Emission.mk Target.broadcast "system:alert"] ∧
    Enhanced.emitBridge (some "system:alert") ({} : Payload) =
      Except.ok [Emission.mk Target.broadcast "system:alert"] ∧
    Enhanced.emitToRoom "system:alert" ({} : Payload) = [] :=
  c3_unresolvable_routing "system:alert" {} (by decide) (by decide) rfl

/-- C4 counterexample: the message:update handler relays through io.to, so
the handling socket 1, a member of room 5-9 and the sender of the edit, is
among the recipients of its own message:update - peer-relay message edits
are not delivered excluding the sender. -/
theorem c4_counterexample :
    Part001.messageUpdate 1 5 9 [("5-9", [1, 2])] = [1, 2] ∧
    1 ∈ Part001.messageUpdate 1 5 9 [("5-9", [1, 2])] := by
  decide

/-- C4 amended: WebRTC signaling relays through socket.to and never reaches
the emitting socket, while message edits and call-status events go through
io.to to every member of the canonical room, the sender included when it is
a member. -/
theorem c4_relay_exclusion_vs_status (s : Nat) (r : String)
    (adapter : List (String × List Nat)) (a b : Nat) (ev : String) (d : Payload)
    (hmem : s ∈ membersOf (roomKey a b) adapter)
    (hs : Basic.resolveSid d = some a) (hr : Basic.resolveRid d = some b)
    (ha : a ≠ 0) (hb : b ≠ 0) :
    s ∉ Basic.webrtcSignal s (some r) adapter ∧
    s ∈ Part001.messageUpdate s a b adapter ∧
    (Basic.emitToRoom ev d = [Emission.mk (Target.room (roomKey a b)) ev] ∧
      s ∈ ioTo (roomKey a b) adapter) := by
  refine ⟨?_, hmem, basic_emitToRoom_room ev d a b hs hr ha hb, hmem⟩
  unfold Basic.webrtcSignal
  by_cases hre : r = ""
  · simp [hre]
  · simp [hre, socketTo, List.mem_filter]

/-- C4 witness: the amended statement at socket 1 editing in room 5-9 with
both members connected. -/
theorem c4_relay_exclusion_vs_status_witness :
    1 ∉ Basic.webrtcSignal 1 (some "5-9") [("5-9", [1, 2])] ∧
    1 ∈ Part001.messageUpdate 1 5 9 [("5-9", [1, 2])] ∧
    (Basic.emitToRoom "message:update"
        (Payload.mk (some 5) none (some 9) none none none none none none) =
      [Emission.mk (Target.room (roomKey 5 9)) "message:update"] ∧
      1 ∈ ioTo (roomKey 5 9) [("5-9", [1, 2])]) :=
  c4_relay_exclusion_vs_status 1 "5-9" [("5-9", [1, 2])] 5 9 "message:update"
    (Payload.mk (some 5) none (some 9) none none none none none none)
    (by decide) rfl rfl (by decide) (by decide)

/-- C5: when a departure removes the last member of the departing socket's
current room, the room key is deleted from activeRooms and nothing is
emitted; otherwise the room keeps the remaining members and the remaining
adapter members are notified with room:left. -/
theorem c5_empty_room_deleted (s : Nat) (st : Basic.ServerState) (r : String)
    (ms : List Nat)
    (hcur : lookupM s st.currentRoom = some r)
    (hms : lookupM r st.activeRooms = some ms) :
    (ms.erase s = [] →
      lookupM r (Basic.disconnect s st).1.activeRooms = none ∧
      (Basic.disconnect s st).2 = []) ∧
    (ms.erase s ≠ [] →
      lookupM r (Basic.disconnect s st).1.activeRooms = some (ms.erase s) ∧
      (Basic.disconnect s st).2 =
        [Basic.RoomEmission.mk "room:left"
          (socketTo s r (st.adapter.map (fun p => (p.1, p.2.erase s))))]) := by
  unfold Basic.disconnect
  dsimp only
  rw [hcur]
  dsimp only
  rw [hms]
  dsimp only
  by_cases h0 : ms.erase s = []
  · rw [if_pos h0]
    exact ⟨fun _ => ⟨lookupM_mapDelete_self r st.activeRooms, rfl⟩,
      fun hne => absurd h0 hne⟩
  · rw [if_neg h0]
    exact ⟨fun heq => absurd heq h0,
      fun _ => ⟨lookupM_mapSet_self r (ms.erase s) st.activeRooms, rfl⟩⟩

/-- C5 witness: the sole member of room 5-9 disconnects and the room key is
gone from the directory with no notification. -/
theorem c5_empty_room_deleted_witness :
    lookupM "5-9"
      (Basic.disconnect 7
        (Basic.ServerState.mk [("5-9", [7])] [("5-9", [7])] [(7, "5-9")] [])).1.activeRooms
      = none ∧
    (Basic.disconnect 7
      (Basic.ServerState.mk [("5-9", [7])] [("5-9", [7])] [(7, "5-9")] [])).2 = [] :=
  (c5_empty_room_deleted 7
    (Basic.ServerState.mk [("5-9", [7])] [("5-9", [7])] [(7, "5-9")] [])
    "5-9" [7] rfl rfl).1 (by decide)

/-- C6 counterexample: the register handler of the oldest variant stores a
single socket id per user in a Map, so registering a second connection for
user 7 discards the first - previously registered connections are not
preserved. -/
theorem c6_counterexample :
    Part000.register 2 (some 7) (Part000.register 1 (some 7) []) =
      [(some 7, 2)] ∧
    1 ∉ Part000.registeredConnections (some 7)
      (Part000.register 2 (some 7) (Part000.register 1 (some 7) [])) := by
  decide

/-- C6 amended: the Set-based joinUserRoom registration preserves every
previously registered connection of every user, is a no-op when the socket
is already registered for that user and when the userId is missing or falsy,
and records the new connection; the Map-based register handler instead keeps
only the latest connection per user. -/
theorem c6_registration_semantics (s u : Nat) (uid : Option Nat)
    (st : Basic.ServerState) (hu : u ≠ 0) :
    (∀ u' c, c ∈ membersOf u' st.userRooms →
      c ∈ membersOf u' (Basic.joinUserRoom s uid st).userRooms) ∧
    (s ∈ membersOf u st.userRooms →
      (Basic.joinUserRoom s (some u) st).userRooms = st.userRooms) ∧
    Basic.joinUserRoom s none st = st ∧
    Basic.joinUserRoom s (some 0) st = st ∧
    s ∈ membersOf u (Basic.joinUserRoom s (some u) st).userRooms := by
  refine ⟨?_, ?_, rfl, rfl, ?_⟩
  · intro u' c hc
    unfold Basic.joinUserRoom
    cases uid with
    | none => exact hc
    | some v =>
      by_cases hv : v = 0
      · dsimp only
        rw [if_pos hv]
        exact hc
      · dsimp only
        rw [if_neg hv]
        exact mem_membersOf_addTo v u' s c st.userRooms hc
  · intro hmem
    unfold Basic.joinUserRoom
    dsimp only
    rw [if_neg hu]
    exact addTo_of_mem u s st.userRooms hmem
  · unfold Basic.joinUserRoom
    dsimp only
    rw [if_neg hu]
    exact mem_addTo_self u s st.userRooms

/-- C6 witness: re-registering the already-present socket 3 for user 7
leaves the registry unchanged, and the socket is registered. -/
theorem c6_registration_semantics_witness :
    (Basic.joinUserRoom 3 (some 7)
        (Basic.ServerState.mk [] [] [] [(7, [3])])).userRooms = [(7, [3])] ∧
    3 ∈ membersOf 7 (Basic.joinUserRoom 3 (some 7)
        (Basic.ServerState.mk [] [] [] [(7, [3])])).userRooms :=
  ⟨(c6_registration_semantics 3 7 (some 7)
      (Basic.ServerState.mk [] [] [] [(7, [3])]) (by decide)).2.1 (by decide),
   (c6_registration_semantics 3 7 (some 7)
      (Basic.ServerState.mk [] [] [] [(7, [3])]) (by decide)).2.2.2.2⟩

/-- C7 failing input: socket 1 joins room 1-2, then joins room 3-4, then
disconnects; the stale membership of 1-2 survives both the switch and the
disconnect, so a connection is not implicitly removed from its previous
room. -/
theorem c7_failing_input :
    lookupM "1-2"
      ((Basic.joinRoom 1 (some 3) (some 4)
        (Basic.joinRoom 1 (some 1) (some 2) Basic.emptyState).1).1).activeRooms
      = some [1] ∧
    lookupM "1-2"
      ((Basic.disconnect 1
        (Basic.joinRoom 1 (some 3) (some 4)
          (Basic.joinRoom 1 (some 1) (some 2) Basic.emptyState).1).1).1).activeRooms
      = some [1] := by
  decide

/-- C8: call:start with a truthy id records the call as ringing with the
current time and fans out call:ringing to the canonical room of the
resolved participants; a subsequent call:accept carrying the same call_id
overwrites the status to accepted with the new time and fans out
call:accepted to the same room. -/
theorem c8_call_lifecycle (t1 t2 : Nat) (d1 d2 : Payload)
    (cs : Enhanced.CallStates) (cid : String) (a b : Nat)
    (hid : d1.id = some cid) (hcid : cid ≠ "")
    (hs1 : Enhanced.resolveSid d1 = some a)
    (hr1 : Enhanced.resolveRid d1 = some b)
    (hk1 : d1.conversationKey = none)
    (hcall : d2.call_id = some cid)
    (hs2 : Enhanced.resolveSid d2 = some a)
    (hr2 : Enhanced.resolveRid d2 = some b)
    (hk2 : d2.conversationKey = none)
    (ha : a ≠ 0) (hb : b ≠ 0) :
    lookupM cid (Enhanced.callStart t1 d1 cs).1 =
      some (Enhanced.CallRecord.mk d1 "ringing" t1) ∧
    (Enhanced.callStart t1 d1 cs).2 =
      [Emission.mk (Target.room (roomKey a b)) "call:ringing"] ∧
    lookupM cid (Enhanced.callAccept t2 d2 (Enhanced.callStart t1 d1 cs).1).1 =
      some (Enhanced.CallRecord.mk d1 "accepted" t2) ∧
    (Enhanced.callAccept t2 d2 (Enhanced.callStart t1 d1 cs).1).2 =
      [Emission.mk (Target.room (roomKey a b)) "call:accepted"] := by
  have hroom1 := enhanced_resolvesRoom_pair d1 a b hk1 hs1 hr1 ha hb
  have hroom2 := enhanced_resolvesRoom_pair d2 a b hk2 hs2 hr2 ha hb
  have hstart : Enhanced.callStart t1 d1 cs =
      (mapSet cid (Enhanced.CallRecord.mk d1 "ringing" t1) cs,
       [Emission.mk (Target.room (roomKey a b)) "call:ringing"]) := by
    unfold Enhanced.callStart
    rw [hid]
    dsimp only
    rw [if_neg hcid, enhanced_emitToRoom_room _ _ _ hroom1]
  have hlk1 : lookupM cid (Enhanced.callStart t1 d1 cs).1 =
      some (Enhanced.CallRecord.mk d1 "ringing" t1) := by
    rw [hstart]
    exact lookupM_mapSet_self cid _ cs
  have hcidr : Enhanced.resolveCallId d2 = some cid := by
    unfold Enhanced.resolveCallId
    rw [hcall]
    rfl
  refine ⟨hlk1, by rw [hstart], ?_, ?_⟩
  · unfold Enhanced.callAccept Enhanced.callUpdate
    dsimp only
    rw [hcidr]
    dsimp only
    rw [if_neg hcid]
    rw [hlk1]
    dsimp only
    rw [lookupM_mapModify_self, hlk1]
    rfl
  · unfold Enhanced.callAccept Enhanced.callUpdate
    dsimp only
    rw [enhanced_emitToRoom_room _ _ _ hroom2]

/-- C8 witness: the 5-9 scenario with call id c1, started at time 0 and
accepted at time 1, from an empty tracker. -/
theorem c8_call_lifecycle_witness :
    lookupM "c1" (Enhanced.callStart 0
      (Payload.mk (some 5) none (some 9) none none none none (some "c1") none)
      []).1 =
      some (Enhanced.CallRecord.mk
        (Payload.mk (some 5) none (some 9) none none none none (some "c1") none)
        "ringing" 0) ∧
    (Enhanced.callStart 0
      (Payload.mk (some 5) none (some 9) none none none none (some "c1") none)
      []).2 =
      [Emission.mk (Target.room (roomKey 5 9)) "call:ringing"] ∧
    lookupM "c1" (Enhanced.callAccept 1
      (Payload.mk (some 5) none (some 9) none none none none none (some "c1"))
      (Enhanced.callStart 0
        (Payload.mk (some 5) none (some 9) none none none none (some "c1") none)
        []).1).1 =
      some (Enhanced.CallRecord.mk
        (Payload.mk (some 5) none (some 9) none none none none (some "c1") none)
        "accepted" 1) ∧
    (Enhanced.callAccept 1
      (Payload.mk (some 5) none (some 9) none none none none none (some "c1"))
      (Enhanced.callStart 0
        (Payload.mk (some 5) none (some 9) none none none none (some "c1") none)
        []).1).2 =
      [Emission.mk (Target.room (roomKey 5 9)) "call:accepted"] :=
  c8_call_lifecycle 0 1
    (Payload.mk (some 5) none (some 9) none none none none (some "c1") none)
    (Payload.mk (some 5) none (some 9) none none none none none (some "c1"))
    [] "c1" 5 9 rfl (by decide) rfl rfl rfl rfl rfl rfl rfl
    (by decide) (by decide)

/-- C9: disconnecting a socket that has no current room and appears in no
registry entry leaves activeRooms and userRooms unchanged and emits
nothing, and the Map cleanup of the oldest variant also leaves its registry
unchanged. -/
theorem c9_disconnect_noop (s : Nat) (st : Basic.ServerState)
    (m : List (Option Nat × Nat))
    (hcur : lookupM s st.currentRoom = none)
    (hur : ∀ p ∈ st.userRooms, s ∉ p.2 ∧ p.2 ≠ [])
    (hm : ∀ p ∈ m, p.2 ≠ s) :
    (Basic.disconnect s st).1.activeRooms = st.activeRooms ∧
    (Basic.disconnect s st).1.userRooms = st.userRooms ∧
    (Basic.disconnect s st).2 = [] ∧
    Part000.disconnectCleanup s m = m := by
  have hd : Basic.disconnect s st =
      (Basic.ServerState.mk (st.adapter.map (fun p => (p.1, p.2.erase s)))
        st.activeRooms (mapDelete s st.currentRoom)
        ((st.userRooms.map (fun p => (p.1, p.2.erase s))).filter
          (fun p => !p.2.isEmpty)), []) := by
    unfold Basic.disconnect
    dsimp only
    rw [hcur]
  refine ⟨by rw [hd], ?_, by rw [hd], ?_⟩
  · rw [hd]
    exact unregister_noop s st.userRooms hur
  · unfold Part000.disconnectCleanup
    refine List.filter_eq_self.mpr ?_
    intro p hp
    simpa using hm p hp

/-- C9 witness: socket 42 never joined and never registered; a populated
state and Map survive its disconnect untouched. -/
theorem c9_disconnect_noop_witness :
    (Basic.disconnect 42 (Basic.ServerState.mk [("5-9", [1, 2])]
      [("5-9", [1, 2])] [(1, "5-9")] [(7, [1])])).1.activeRooms =
      [("5-9", [1, 2])] ∧
    (Basic.disconnect 42 (Basic.ServerState.mk [("5-9", [1, 2])]
      [("5-9", [1, 2])] [(1, "5-9")] [(7, [1])])).1.userRooms = [(7, [1])] ∧
    (Basic.disconnect 42 (Basic.ServerState.mk [("5-9", [1, 2])]
      [("5-9", [1, 2])] [(1, "5-9")] [(7, [1])])).2 = [] ∧
    Part000.disconnectCleanup 42 [(some 7, 1)] = [(some 7, 1)] :=
  c9_disconnect_noop 42
    (Basic.ServerState.mk [("5-9", [1, 2])] [("5-9", [1, 2])] [(1, "5-9")]
      [(7, [1])])
    [(some 7, 1)] (by decide) (by decide) (by decide)

/-- C10: call:start with a falsy id changes nothing and emits nothing; the
other lifecycle handlers with an untracked or falsy call id leave the
callStates map unchanged while still fanning out the status event to the
resolved room. -/
theorem c10_call_guard (t : Nat) (ds du : Payload) (cs : Enhanced.CallStates)
    (ev stat : String) (a b : Nat)
    (hid : ds.id = none ∨ ds.id = some "")
    (htr : Enhanced.callTracked du cs = false)
    (hs : Enhanced.resolveSid du = some a)
    (hr : Enhanced.resolveRid du = some b)
    (hk : du.conversationKey = none) (ha : a ≠ 0) (hb : b ≠ 0) :
    Enhanced.callStart t ds cs = (cs, []) ∧
    (Enhanced.callUpdate ev stat t du cs).1 = cs ∧
    (Enhanced.callUpdate ev stat t du cs).2 =
      [Emission.mk (Target.room (roomKey a b)) ev] := by
  refine ⟨?_, ?_, ?_⟩
  · unfold Enhanced.callStart
    rcases hid with h | h
    · rw [h]
    · rw [h]
      dsimp only
      rw [if_pos rfl]
  · unfold Enhanced.callUpdate
    dsimp only
    unfold Enhanced.callTracked at htr
    cases hc : Enhanced.resolveCallId du with
    | none => rfl
    | some c =>
      rw [hc] at htr
      dsimp only at htr
      dsimp only
      by_cases hce : c = ""
      · rw [if_pos hce]
      · rw [if_neg hce]
        cases hl : lookupM c cs with
        | none => rfl
        | some v =>
          rw [hl] at htr
          simp [hce] at htr
  · unfold Enhanced.callUpdate
    dsimp only
    rw [enhanced_emitToRoom_room ev du (roomKey a b)
      (enhanced_resolvesRoom_pair du a b hk hs hr ha hb)]

/-- C10 witness: call:start with no id on an empty-id payload, and
call:accept for the untracked call id zz between users 5 and 9 over an
empty tracker. -/
theorem c10_call_guard_witness :
    Enhanced.callStart 0 ({} : Payload) [] = ([], []) ∧
    (Enhanced.callUpdate "call:accepted" "accepted" 0
      (Payload.mk (some 5) none (some 9) none none none none none (some "zz"))
      []).1 = [] ∧
    (Enhanced.callUpdate "call:accepted" "accepted" 0
      (Payload.mk (some 5) none (some 9) none none none none none (some "zz"))
      []).2 = [Emission.mk (Target.room (roomKey 5 9)) "call:accepted"] :=
  c10_call_guard 0 {}
    (Payload.mk (some 5) none (some 9) none none none none none (some "zz"))
    [] "call:accepted" "accepted" 5 9 (Or.inl rfl) (by decide) rfl rfl rfl
    (by decide) (by decide)
